import Mathlib

/-!
Verification development for the TrafficSentinel reconciliation engine
(`traffic_sentinel.py`).

The embedding models:
* Python string primitives used by the code (`lower`, `upper`, `split`,
  `split(":")`) structurally over `String.data`, with ASCII case mapping,
  matching CPython behaviour on the ASCII inputs the program handles;
* the SQLite policy registry (`mac_addresses` table) as a list of rows;
* the scan adapter `scan_network` over the text lines produced by the
  discovery subprocess (`none` models a timeout or any raised exception);
* the Freebox enforcement client (`FreeboxAPI`) as an explicit state
  machine: each HTTP request consumes one time step of an environment
  oracle that decides network availability, session-token acceptance,
  handshake outcomes and the shape (sequence vs. mapping) of the
  `wifi/mac_filter` response; runs also emit an event trace;
* the per-cycle reconciliation logic of `main` and the periodic drift
  check `check_status_changes` as pure functions over the registry, the
  scan snapshot and the gateway device report, emitting an action trace.
-/

namespace TrafficSentinel

/-! ## Python string primitives -/

/-- ASCII lower-casing of one character, as CPython's `str.lower` acts on
the ASCII range (`Char.toLower` has exactly this behaviour). -/
def pyCharLower (c : Char) : Char := Char.toLower c

/-- ASCII upper-casing of one character. -/
def pyCharUpper (c : Char) : Char := Char.toUpper c

/-- Python `s.lower()` on ASCII text. -/
def pyLower (s : String) : String := ⟨s.data.map pyCharLower⟩

/-- Python `s.upper()` on ASCII text. -/
def pyUpper (s : String) : String := ⟨s.data.map pyCharUpper⟩

/-- Split a character list at every separator position, keeping empty
groups, as Python's `str.split(sep)` does. -/
def splitChars (p : Char → Bool) : List Char → List (List Char)
  | [] => [[]]
  | c :: cs =>
    let r := splitChars p cs
    if p c then [] :: r
    else
      match r with
      | g :: gs => (c :: g) :: gs
      | [] => [[c]]

/-- Python `s.split(":")`: colon-separated groups, empties kept. -/
def pyColonGroups (s : String) : List String :=
  (splitChars (fun c => c = ':') s.data).map (fun l => ⟨l⟩)

/-- Python `s.split()`: whitespace-separated tokens, empties dropped. -/
def pyWsSplit (s : String) : List String :=
  ((splitChars Char.isWhitespace s.data).filter (fun l => l ≠ [])).map (fun l => ⟨l⟩)

/-- Python `":" in s`. -/
def pyContainsColon (s : String) : Bool := s.data.any (fun c => c = ':')

/-! ## Policy registry (SQLite table `mac_addresses`) -/

/-- One row of the `mac_addresses` table. -/
structure DeviceRow where
  mac : String
  status : String
  first_seen : String
  last_seen : String
  comment : String
deriving DecidableEq, Repr

/-- Lookup `SELECT ... WHERE mac_address = ?` (the primary key makes the first
match the unique match). -/
def findRow (db : List DeviceRow) (mac : String) : Option DeviceRow :=
  db.find? (fun r => r.mac = mac)

/-- Model of `get_mac_status` (traffic_sentinel.py:802-808). -/
def get_mac_status (db : List DeviceRow) (mac : String) : Option String :=
  (findRow db mac).map (fun r => r.status)

/-- Model of `update_mac_status` (traffic_sentinel.py:776-800): if the row exists,
`UPDATE` writes only `status` and `last_seen`; otherwise `INSERT` creates
the row with `first_seen = last_seen = now` and an empty comment.  `now`
stands for `datetime.now().strftime(...)`. -/
def update_mac_status (db : List DeviceRow) (mac status now : String) : List DeviceRow :=
  match findRow db mac with
  | some _ =>
    db.map (fun r => if r.mac = mac then { r with status := status, last_seen := now } else r)
  | none =>
    db ++ [{ mac := mac, status := status, first_seen := now, last_seen := now, comment := "" }]

/-! ## Scan adapter (`scan_network`, traffic_sentinel.py:758-774)

The subprocess interaction is modelled by the input: `none` stands for
`subprocess.TimeoutExpired` or any other raised exception (both handlers
return the empty set), `some lines` for the list of lines of
`result.stdout`. -/

/-- The parsing applied to one stdout line: the line must contain a colon
and split into at least two whitespace tokens; the second token is
lower-cased and kept only if it has exactly six colon-separated groups. -/
def scanLineMac (line : String) : Option String :=
  if pyContainsColon line ∧ (pyWsSplit line).length ≥ 2 then
    let mac := pyLower ((pyWsSplit line).getD 1 "")
    if (pyColonGroups mac).length = 6 then some mac else none
  else none

/-- Model of `scan_network`: fold the line parser over stdout, accumulating a set
(modelled as a duplicate-free insertion list). -/
def scan_network (result : Option (List String)) : List String :=
  match result with
  | none => []
  | some lines =>
    lines.foldl
      (fun devs line =>
        match scanLineMac line with
        | some mac => if mac ∈ devs then devs else devs ++ [mac]
        | none => devs)
      []

/-! ## Enforcement client and session manager (`FreeboxAPI`)

Each HTTP request consumes one time step.  The environment oracle `Env`
fixes, per step, whether the request completes without an exception
(`net`), whether the gateway accepts a given session token (`accept`,
which may change between steps: a concurrent process can rotate the
session at any time), the outcome of the challenge exchange
(`challengeOk`, `grant`) and the shape of the `wifi/mac_filter` response
(`shapeMap`).  The gateway's filter contents are part of the engine state
`St` so that successive calls observe earlier mutations. -/

/-- The `id` field of a filter entry as delivered by the gateway
(numeric) or fabricated by the client (string). -/
inductive FilterId where
  | num : Nat → FilterId
  | str : String → FilterId
deriving DecidableEq, Repr

/-- An element of a sequence-shaped `wifi/mac_filter` response:
`f.get("mac", "")` is the `mac` field (empty when absent) and
`f.get("id")` the optional `id`. -/
structure ListEntry where
  mac : String
  id : Option FilterId
deriving DecidableEq, Repr

/-- A value of a mapping-shaped response: either a JSON object with an
optional `id` field, or a non-object value. -/
inductive MapVal where
  | obj : Option FilterId → MapVal
  | other : MapVal
deriving DecidableEq, Repr

/-- The `result` payload of a `wifi/mac_filter` GET: the code tolerates
both a sequence and a mapping keyed by MAC (traffic_sentinel.py:521,601). -/
inductive FilterResp where
  | asList : List ListEntry → FilterResp
  | asMap : List (String × MapVal) → FilterResp
deriving DecidableEq, Repr

/-- How the gateway encodes its current entries in a GET response: as the
sequence itself, or as a mapping keyed by each entry's MAC whose values
are objects carrying the entry's id. -/
def encodeResp (asMap : Bool) (entries : List ListEntry) : FilterResp :=
  if asMap then .asMap (entries.map (fun e => (e.mac, MapVal.obj e.id)))
  else .asList entries

/-- Outcome of one authenticated filter request. -/
inductive Outcome where
  | success
  | authRejected
  | netFail
deriving DecidableEq, Repr

/-- Events recorded by a run: the session-validity probe, the
challenge/session handshake (`get_new_session_token`), and the three
`wifi/mac_filter` requests. -/
inductive Ev where
  | probe (ok : Bool)
  | handshake (ok : Bool)
  | filterGet (out : Outcome)
  | filterPost (out : Outcome)
  | filterDelete (out : Outcome)
deriving DecidableEq, Repr

/-- In-memory client fields of `FreeboxAPI`. -/
structure Api where
  connected : Bool
  session_token : Option String
  app_token : Option String
deriving DecidableEq, Repr

/-- Per-step behaviour of the network and gateway. -/
structure Env where
  net : Nat → Bool
  accept : Nat → String → Bool
  challengeOk : Nat → Bool
  grant : Nat → Option String
  shapeMap : Nat → Bool

/-- Engine + gateway state threaded through a run: the client fields, the
gateway's current filter entries, a fresh-id source for entries the
gateway creates on POST, and the time step. -/
structure St where
  api : Api
  entries : List ListEntry
  nextId : Nat
  time : Nat
deriving Repr

/-- Model of `is_session_valid` (traffic_sentinel.py:354-388): without a cached
token, no request is made; otherwise one authenticated probe is issued
and every non-success outcome (HTTP error, `success: false`, exception)
yields `False`. -/
def is_session_valid (env : Env) (st : St) : Bool × St × List Ev :=
  match st.api.session_token with
  | none => (false, st, [])
  | some tok =>
    let n := st.time
    let st' := { st with time := n + 1 }
    if env.net n && env.accept n tok then (true, st', [Ev.probe true])
    else (false, st', [Ev.probe false])

/-- Model of `get_new_session_token` (traffic_sentinel.py:242-310): without an app
token, fail with no request; otherwise GET the challenge (one step; any
failure aborts), then POST the HMAC-SHA1 signature (one step); on success
the granted token is cached.  One `handshake` event is recorded per
attempted challenge exchange. -/
def get_new_session_token (env : Env) (st : St) : Bool × St × List Ev :=
  match st.api.app_token with
  | none => (false, st, [])
  | some _ =>
    let n := st.time
    if !(env.net n && env.challengeOk n) then
      (false, { st with time := n + 1 }, [Ev.handshake false])
    else
      let n2 := n + 1
      if env.net n2 then
        match env.grant n2 with
        | some tok =>
          (true,
           { st with api := { st.api with session_token := some tok }, time := n2 + 1 },
           [Ev.handshake true])
        | none => (false, { st with time := n2 + 1 }, [Ev.handshake false])
      else (false, { st with time := n2 + 1 }, [Ev.handshake false])

/-- Model of `ensure_valid_session` (traffic_sentinel.py:390-409): with no cached
token, go straight to the handshake; otherwise probe once and re-handshake
only if the probe rejects; a failed renewal also clears `connected`. -/
def ensure_valid_session (env : Env) (st : St) : Bool × St × List Ev :=
  match st.api.session_token with
  | none => get_new_session_token env st
  | some _ =>
    let p := is_session_valid env st
    if p.1 then (true, p.2.1, p.2.2)
    else
      let h := get_new_session_token env p.2.1
      if h.1 then (true, h.2.1, p.2.2 ++ h.2.2)
      else
        (false,
         { h.2.1 with api := { h.2.1.api with connected := false } },
         p.2.2 ++ h.2.2)

/-- The duplicate search of `block_device_by_mac`
(traffic_sentinel.py:520-531): case-insensitive MAC comparison against a
sequence's `mac` fields, or against a mapping's keys. -/
def blockFound (resp : FilterResp) (mac_address : String) : Bool :=
  match resp with
  | .asList fs => fs.any (fun f => pyLower f.mac = pyLower mac_address)
  | .asMap kvs => kvs.any (fun kv => pyLower kv.1 = pyLower mac_address)

/-- The filter-id search of `allow_device_by_mac`
(traffic_sentinel.py:598-613): first case-insensitive match; sequence
entries contribute their optional `id`, mapping entries the object's `id`
or, for non-object values, the fabricated `"{mac}-blacklist"` string. -/
def allowLookup (resp : FilterResp) (mac_address : String) : Option FilterId :=
  match resp with
  | .asList fs =>
    match fs.find? (fun f => pyLower f.mac = pyLower mac_address) with
    | some f => f.id
    | none => none
  | .asMap kvs =>
    match kvs.find? (fun kv => pyLower kv.1 = pyLower mac_address) with
    | some (_, MapVal.obj oid) => oid
    | some (k, MapVal.other) => some (.str (k ++ "-blacklist"))
    | none => none

/-- Python truthiness of the `filter_id` value tested by
`if not filter_id:` — `None`, `0` and `""` are falsy. -/
def idTruthy : Option FilterId → Bool
  | none => false
  | some (.num n) => n ≠ 0
  | some (.str s) => s ≠ ""

/-- The POST half of `block_device_by_mac` (traffic_sentinel.py:533-558):
add `{mac.upper(), "blacklist"}`; an exception or `success: false` reports
failure, otherwise the gateway appends a fresh entry. -/
def blockPost (env : Env) (st : St) (tr : List Ev) (mac_address tok : String) :
    Bool × St × List Ev :=
  let n := st.time
  if !(env.net n) then (false, { st with time := n + 1 }, tr ++ [Ev.filterPost .netFail])
  else if !(env.accept n tok) then
    (false, { st with time := n + 1 }, tr ++ [Ev.filterPost .authRejected])
  else
    let entry : ListEntry := { mac := pyUpper mac_address, id := some (.num st.nextId) }
    (true,
     { st with entries := st.entries ++ [entry], nextId := st.nextId + 1, time := n + 1 },
     tr ++ [Ev.filterPost .success])

/-- Model of `block_device_by_mac` (traffic_sentinel.py:494-567): refuse when not
connected; validate the session; GET the filter (an exception aborts; a
non-success response merely skips the duplicate check); report success
when the MAC is already present, otherwise POST the new entry. -/
def block_device_by_mac (env : Env) (st : St) (mac_address : String) :
    Bool × St × List Ev :=
  if !st.api.connected then (false, st, [])
  else
    let s := ensure_valid_session env st
    if !s.1 then (false, s.2.1, s.2.2)
    else
      let st1 := s.2.1
      let tr1 := s.2.2
      let tok := st1.api.session_token.getD ""
      let n := st1.time
      if !(env.net n) then (false, { st1 with time := n + 1 }, tr1 ++ [Ev.filterGet .netFail])
      else
        let st2 := { st1 with time := n + 1 }
        if env.accept n tok then
          if blockFound (encodeResp (env.shapeMap n) st1.entries) mac_address then
            (true, st2, tr1 ++ [Ev.filterGet .success])
          else blockPost env st2 (tr1 ++ [Ev.filterGet .success]) mac_address tok
        else blockPost env st2 (tr1 ++ [Ev.filterGet .authRejected]) mac_address tok

/-- Model of `allow_device_by_mac` (traffic_sentinel.py:569-646): refuse when not
connected; validate the session; GET the filter (any non-success outcome
aborts); a falsy `filter_id` means the MAC is absent and is reported as
success with no mutation; otherwise DELETE the entry with that id. -/
def allow_device_by_mac (env : Env) (st : St) (mac_address : String) :
    Bool × St × List Ev :=
  if !st.api.connected then (false, st, [])
  else
    let s := ensure_valid_session env st
    if !s.1 then (false, s.2.1, s.2.2)
    else
      let st1 := s.2.1
      let tr1 := s.2.2
      let tok := st1.api.session_token.getD ""
      let n := st1.time
      if !(env.net n) then (false, { st1 with time := n + 1 }, tr1 ++ [Ev.filterGet .netFail])
      else if !(env.accept n tok) then
        (false, { st1 with time := n + 1 }, tr1 ++ [Ev.filterGet .authRejected])
      else
        let st2 := { st1 with time := n + 1 }
        let tr2 := tr1 ++ [Ev.filterGet .success]
        let fid := allowLookup (encodeResp (env.shapeMap n) st1.entries) mac_address
        if !(idTruthy fid) then (true, st2, tr2)
        else
          let n2 := st2.time
          if !(env.net n2) then
            (false, { st2 with time := n2 + 1 }, tr2 ++ [Ev.filterDelete .netFail])
          else if !(env.accept n2 tok) then
            (false, { st2 with time := n2 + 1 }, tr2 ++ [Ev.filterDelete .authRejected])
          else
            (true,
             { st2 with entries := st2.entries.filter (fun e => e.id ≠ fid), time := n2 + 1 },
             tr2 ++ [Ev.filterDelete .success])

/-! ## Drift check (`check_status_changes`, traffic_sentinel.py:685-741) -/

/-- One element of the `lan/browser/pub` device report: the
`l2ident.id` MAC (empty string when absent) and the optional `access`
flag (`device.get("access", True)` defaults to allowed). -/
structure FbxDevice where
  mac : String
  access : Option Bool
deriving DecidableEq, Repr

/-- The `freebox_states` dictionary (traffic_sentinel.py:709-713): keyed
by lower-cased MAC, skipping empty MACs; a later device overwrites an
earlier one with the same key, so lookup takes the last writer. -/
def fbxState (devs : List FbxDevice) (mac : String) : Option Bool :=
  ((devs.filterMap
      (fun d => if pyLower d.mac ≠ "" then some (pyLower d.mac, d.access.getD true) else none)).reverse.find?
    (fun kv => kv.1 = mac)).map (fun kv => kv.2)

/-- Enforcement actions and notifications recorded by the cycle. -/
inductive Act where
  | upsertA (mac status : String)
  | blockCall (mac : String)
  | allowCall (mac : String)
  | notifyNew (mac status : String)
  | driftBlock (mac : String)
  | driftAllow (mac : String)
deriving DecidableEq, Repr

/-- The per-row body of `check_status_changes`
(traffic_sentinel.py:716-738): skip devices the gateway does not report
and statuses outside the enumeration; on a mismatch between the
gateway-reported access flag and the one implied by the registry status,
issue the corrective call (with its drift warning). -/
def driftRowActs (devs : List FbxDevice) (row : DeviceRow) : List Act :=
  match fbxState devs row.mac with
  | none => []
  | some current =>
    if row.status = "banned" ∨ row.status = "quarantine" then
      if current ≠ false then
        if current then [Act.driftBlock row.mac] else []
      else []
    else if row.status = "authorized" then
      if current ≠ true then
        if !current then [Act.driftAllow row.mac] else []
      else []
    else []

/-- Model of `check_status_changes` (traffic_sentinel.py:685-741): nothing happens
without a Freebox connection or when `get_network_devices` returns an
empty (falsy) report; otherwise every registry row is compared against
the gateway state.  The function reads the registry and calls the
enforcement client but performs no registry write. -/
def check_status_changes (connected : Bool) (db : List DeviceRow)
    (devs : List FbxDevice) : List Act :=
  if !connected then []
  else if devs = [] then []
  else db.flatMap (driftRowActs devs)

/-! ## Reconciliation cycle (`main` loop body, traffic_sentinel.py:1011-1058)

The loop body reads `known_macs` once, then processes each scanned MAC:
the actions chosen depend only on that snapshot (never on the registry
writes made meanwhile), and the registry writes depend only on the MAC,
the snapshot status and the clock, so the write fold and the action trace
are given separately. -/

/-- Registry effect of one iteration of the `for mac in detected_macs`
loop: a new device is upserted with forced `"quarantine"`; a known device
with a truthy (non-empty) status is re-upserted with the status read at
the start of the cycle, refreshing `last_seen` (traffic_sentinel.py:1049-1050). -/
def macDbStep (known : String → Option String) (now : String)
    (db : List DeviceRow) (mac : String) : List DeviceRow :=
  match known mac with
  | none => update_mac_status db mac "quarantine" now
  | some s => if s ≠ "" then update_mac_status db mac s now else db

/-- Calls and notifications of one iteration
(traffic_sentinel.py:1028-1050): a new device yields the quarantine
upsert, then `block_mac`, then one `send_slack_alert`; `banned` and
`quarantine` devices are blocked, `authorized` devices allowed, anything
else only logged, followed by the `last_seen` upsert when the status is
truthy. -/
def macActs (known : String → Option String) (mac : String) : List Act :=
  match known mac with
  | none => [Act.upsertA mac "quarantine", Act.blockCall mac, Act.notifyNew mac "quarantine"]
  | some s =>
    (if s = "banned" then [Act.blockCall mac]
     else if s = "quarantine" then [Act.blockCall mac]
     else if s = "authorized" then [Act.allowCall mac]
     else []) ++ (if s ≠ "" then [Act.upsertA mac s] else [])

/-- The `known_macs` dictionary (traffic_sentinel.py:1022-1026), read
once per cycle before the loop. -/
def knownStatus (db : List DeviceRow) (mac : String) : Option String :=
  get_mac_status db mac

/-- One cycle of the main loop: an empty snapshot (also produced by every
scan failure) skips everything, leaving registry, counter and enforcement
untouched; otherwise each scanned MAC is processed and, every third
non-empty cycle (`STATUS_CHECK_INTERVAL = 3`), the drift check runs over
the updated registry.  Returns the registry, the counter and the action
trace. -/
def runCycle (scanned : List String) (db : List DeviceRow) (now : String)
    (ctr : Nat) (connected : Bool) (devs : List FbxDevice) :
    List DeviceRow × Nat × List Act :=
  if scanned.length = 0 then (db, ctr, [])
  else
    let known := knownStatus db
    let db' := scanned.foldl (macDbStep known now) db
    let acts := scanned.flatMap (macActs known)
    if ctr + 1 ≥ 3 then (db', 0, acts ++ check_status_changes connected db' devs)
    else (db', ctr + 1, acts)

/-- A cycle driven by the scan adapter's raw outcome. -/
def runCycleScan (result : Option (List String)) (db : List DeviceRow) (now : String)
    (ctr : Nat) (connected : Bool) (devs : List FbxDevice) :
    List DeviceRow × Nat × List Act :=
  runCycle (scan_network result) db now ctr connected devs

/-! ## String lemmas -/

theorem char_toNat_ofNat {m : Nat} (h : m < 55296) : (Char.ofNat m).toNat = m := by
  have hv : Nat.isValidChar m := Or.inl h
  simp only [Char.ofNat, hv, dif_pos]
  rfl

theorem pyCharLower_eq (c : Char) :
    pyCharLower c = if c.toNat ≥ 65 ∧ c.toNat ≤ 90 then Char.ofNat (c.toNat + 32) else c := by
  simp only [pyCharLower, Char.toLower]

theorem pyCharUpper_eq (c : Char) :
    pyCharUpper c = if c.toNat ≥ 97 ∧ c.toNat ≤ 122 then Char.ofNat (c.toNat - 32) else c := by
  simp only [pyCharUpper, Char.toUpper]

theorem pyCharLower_idem (c : Char) : pyCharLower (pyCharLower c) = pyCharLower c := by
  by_cases h : c.toNat ≥ 65 ∧ c.toNat ≤ 90
  · have h32 : (Char.ofNat (c.toNat + 32)).toNat = c.toNat + 32 := char_toNat_ofNat (by omega)
    rw [pyCharLower_eq c, if_pos h, pyCharLower_eq, h32, if_neg (by omega)]
  · rw [pyCharLower_eq c, if_neg h, pyCharLower_eq, if_neg h]

theorem pyCharLower_upper (c : Char) : pyCharLower (pyCharUpper c) = pyCharLower c := by
  by_cases h : c.toNat ≥ 97 ∧ c.toNat ≤ 122
  · have h32 : (Char.ofNat (c.toNat - 32)).toNat = c.toNat - 32 := char_toNat_ofNat (by omega)
    rw [pyCharUpper_eq c, if_pos h, pyCharLower_eq, h32, if_pos (by omega)]
    have : c.toNat - 32 + 32 = c.toNat := by omega
    rw [this, Char.ofNat_toNat, pyCharLower_eq, if_neg (by omega)]
  · rw [pyCharUpper_eq c, if_neg h]

theorem pyLower_data (s : String) : (pyLower s).data = s.data.map pyCharLower := rfl

theorem pyLower_idem (s : String) : pyLower (pyLower s) = pyLower s := by
  apply congrArg String.mk
  show (s.data.map pyCharLower).map pyCharLower = s.data.map pyCharLower
  rw [List.map_map]
  exact List.map_congr_left (fun c _ => pyCharLower_idem c)

theorem pyLower_pyUpper (s : String) : pyLower (pyUpper s) = pyLower s := by
  apply congrArg String.mk
  show (s.data.map pyCharUpper).map pyCharLower = s.data.map pyCharLower
  rw [List.map_map]
  exact List.map_congr_left (fun c _ => pyCharLower_upper c)

/-! ## Registry lemmas -/

theorem findRow_mac {db : List DeviceRow} {mac : String} {r : DeviceRow}
    (h : findRow db mac = some r) : r.mac = mac := by
  have := List.find?_some h
  simpa using this

theorem findRow_map_upd (db : List DeviceRow) (mac status now : String) :
    findRow (db.map (fun x => if x.mac = mac then { x with status := status, last_seen := now } else x)) mac
      = (findRow db mac).map (fun r => { r with status := status, last_seen := now }) := by
  induction db with
  | nil => rfl
  | cons a l ih =>
    by_cases h : a.mac = mac
    · have h1 : (if a.mac = mac then { a with status := status, last_seen := now } else a) =
          { a with status := status, last_seen := now } := if_pos h
      simp only [List.map_cons, h1, findRow]
      rw [List.find?_cons_of_pos _ (by simpa using h),
        List.find?_cons_of_pos _ (by simpa using h)]
      rfl
    · have h1 : (if a.mac = mac then { a with status := status, last_seen := now } else a) = a :=
        if_neg h
      simp only [List.map_cons, h1, findRow]
      rw [List.find?_cons_of_neg _ (by simpa using h),
        List.find?_cons_of_neg _ (by simpa using h)]
      exact ih

theorem findRow_map_upd_ne (db : List DeviceRow) (m s now mac : String) (hne : m ≠ mac) :
    findRow (db.map (fun x => if x.mac = m then { x with status := s, last_seen := now } else x)) mac
      = findRow db mac := by
  induction db with
  | nil => rfl
  | cons a l ih =>
    have hmac : ((if a.mac = m then { a with status := s, last_seen := now } else a) : DeviceRow).mac
        = a.mac := by
      by_cases hh : a.mac = m
      · rw [if_pos hh]
      · rw [if_neg hh]
    by_cases h : a.mac = mac
    · have ham : ¬a.mac = m := fun hh => hne (hh.symm.trans h)
      simp only [List.map_cons, if_neg ham, findRow]
      rw [List.find?_cons_of_pos _ (by simpa using h),
        List.find?_cons_of_pos _ (by simpa using h)]
    · simp only [List.map_cons, findRow]
      rw [List.find?_cons_of_neg _ (by simp [hmac, h]),
        List.find?_cons_of_neg _ (by simpa using h)]
      exact ih

theorem findRow_append_one (db : List DeviceRow) (x : DeviceRow) (mac : String) :
    findRow (db ++ [x]) mac
      = ((findRow db mac).or (if x.mac = mac then some x else none)) := by
  unfold findRow
  rw [List.find?_append]
  by_cases h : x.mac = mac
  · rw [if_pos h]
    have : List.find? (fun r => r.mac = mac) [x] = some x :=
      List.find?_cons_of_pos _ (by simpa using h)
    rw [this]
  · rw [if_neg h]
    have : List.find? (fun r => r.mac = mac) [x] = none := by
      rw [List.find?_cons_of_neg _ (by simpa using h)]
      rfl
    rw [this]

theorem findRow_update_other (db : List DeviceRow) (m s now mac : String) (hne : m ≠ mac) :
    findRow (update_mac_status db m s now) mac = findRow db mac := by
  unfold update_mac_status
  cases hf : findRow db m with
  | some r => exact findRow_map_upd_ne db m s now mac hne
  | none =>
    rw [findRow_append_one]
    rw [if_neg (by simpa using fun hh : m = mac => hne hh)]
    cases findRow db mac <;> rfl

theorem findRow_update_self (db : List DeviceRow) (mac s now : String) :
    findRow (update_mac_status db mac s now) mac
      = some (match findRow db mac with
          | some r => { r with status := s, last_seen := now }
          | none => { mac := mac, status := s, first_seen := now, last_seen := now, comment := "" }) := by
  unfold update_mac_status
  cases hf : findRow db mac with
  | some r =>
    rw [findRow_map_upd db mac s now, hf]
    rfl
  | none =>
    rw [findRow_append_one, hf, if_pos rfl]
    rfl

/-! ## Scan adapter lemmas -/

theorem scanLineMac_valid {line m : String} (h : scanLineMac line = some m) :
    pyLower m = m ∧ (pyColonGroups m).length = 6 := by
  unfold scanLineMac at h
  by_cases h1 : pyContainsColon line ∧ (pyWsSplit line).length ≥ 2
  · rw [if_pos h1] at h
    by_cases h2 : (pyColonGroups (pyLower ((pyWsSplit line).getD 1 ""))).length = 6
    · rw [if_pos h2] at h
      have hm : pyLower ((pyWsSplit line).getD 1 "") = m := Option.some.inj h
      rw [← hm]
      exact ⟨pyLower_idem _, h2⟩
    · rw [if_neg h2] at h
      exact absurd h (by simp)
  · rw [if_neg h1] at h
    exact absurd h (by simp)

theorem scan_fold_valid (lines : List String) (acc : List String)
    (hacc : ∀ m ∈ acc, pyLower m = m ∧ (pyColonGroups m).length = 6) :
    ∀ m ∈ lines.foldl
        (fun devs line =>
          match scanLineMac line with
          | some mac => if mac ∈ devs then devs else devs ++ [mac]
          | none => devs) acc,
      pyLower m = m ∧ (pyColonGroups m).length = 6 := by
  induction lines generalizing acc with
  | nil => exact hacc
  | cons line rest ih =>
    intro m hm
    rw [List.foldl_cons] at hm
    refine ih _ ?_ m hm
    intro m' hm'
    cases hl : scanLineMac line with
    | none =>
      simp only [hl] at hm'
      exact hacc m' hm'
    | some mac =>
      simp only [hl] at hm'
      by_cases hmem : mac ∈ acc
      · rw [if_pos hmem] at hm'
        exact hacc m' hm'
      · rw [if_neg hmem] at hm'
        rcases List.mem_append.mp hm' with hold | hnew
        · exact hacc m' hold
        · have : m' = mac := by simpa using hnew
          rw [this]
          exact scanLineMac_valid hl

/-- Claim C10 (invariants): `scan_network` is total (it is a function of the
subprocess outcome, with `none` covering `TimeoutExpired` and every other
exception) and returns the empty set on any error; every element of the
returned set is lower-case and splits into exactly six colon-separated
groups — precisely the validity test the code applies.  (Hex-ness of the
groups is not checked by the code and not part of this claim's gloss.) -/
theorem c10_scan_network_total_valid :
    scan_network none = [] ∧
    ∀ r m, m ∈ scan_network r → pyLower m = m ∧ (pyColonGroups m).length = 6 := by
  refine ⟨rfl, ?_⟩
  intro r m hm
  cases r with
  | none => exact absurd hm (by simp [scan_network])
  | some lines =>
    simp only [scan_network] at hm
    exact scan_fold_valid lines [] (by intro x hx; exact absurd hx (List.not_mem_nil x)) m hm

/-- Witness for C10 at a concrete scan output. -/
theorem c10_scan_network_total_valid_witness :
    pyLower "aa:bb:cc:dd:ee:ff" = "aa:bb:cc:dd:ee:ff" ∧
    (pyColonGroups "aa:bb:cc:dd:ee:ff").length = 6 :=
  c10_scan_network_total_valid.2 (some ["192.168.1.9 AA:BB:CC:DD:EE:FF AcmeCorp"])
    "aa:bb:cc:dd:ee:ff" (by decide)

/-! ## C7: upsert frame conditions -/

/-- Claim C7 (frame_effect): for a MAC already present, `update_mac_status`
issues the `UPDATE` that writes only `status` and `last_seen` (every other
row is untouched, as the map form shows), and the row keeps its
`first_seen` and `comment` while `last_seen` becomes the current time. -/
theorem c7_upsert_preserves_first_seen_comment
    (db : List DeviceRow) (mac status now : String) (r : DeviceRow)
    (hr : findRow db mac = some r) :
    update_mac_status db mac status now
        = db.map (fun x => if x.mac = mac then { x with status := status, last_seen := now } else x)
    ∧ findRow (update_mac_status db mac status now) mac
        = some { mac := mac, status := status, first_seen := r.first_seen,
                 last_seen := now, comment := r.comment } := by
  constructor
  · unfold update_mac_status
    rw [hr]
  · rw [findRow_update_self, hr]
    have hm := findRow_mac hr
    obtain ⟨rm, rs, rf, rl, rc⟩ := r
    simp only at hm
    rw [hm]

/-- Witness for C7: an update refreshes status and `last_seen` only. -/
theorem c7_upsert_preserves_first_seen_comment_witness :
    findRow (update_mac_status [⟨"aa:bb:cc:dd:ee:01", "banned", "T0", "T1", "lab device"⟩]
        "aa:bb:cc:dd:ee:01" "authorized" "T2") "aa:bb:cc:dd:ee:01"
      = some ⟨"aa:bb:cc:dd:ee:01", "authorized", "T0", "T2", "lab device"⟩ :=
  (c7_upsert_preserves_first_seen_comment
    [⟨"aa:bb:cc:dd:ee:01", "banned", "T0", "T1", "lab device"⟩]
    "aa:bb:cc:dd:ee:01" "authorized" "T2"
    ⟨"aa:bb:cc:dd:ee:01", "banned", "T0", "T1", "lab device"⟩ (by decide)).2

/-! ## C2: empty or failed scans freeze the registry -/

/-- Claim C2 (frame_effect): a cycle whose scan comes back empty — and every
scan failure produces the empty set, so failure is not distinguished from
emptiness — leaves the registry exactly as it was, performs no
classification, enforcement call or notification, and leaves the
drift-check counter alone. -/
theorem c2_empty_scan_leaves_registry_untouched
    (r : Option (List String)) (db : List DeviceRow) (now : String) (ctr : Nat)
    (connected : Bool) (devs : List FbxDevice)
    (h : scan_network r = []) :
    runCycleScan r db now ctr connected devs = (db, ctr, []) := by
  unfold runCycleScan runCycle
  rw [h]
  rfl

/-- Witness for C2 at a failed scan (`none`, i.e. timeout/exception). -/
theorem c2_empty_scan_leaves_registry_untouched_witness :
    runCycleScan none [⟨"aa:bb:cc:dd:ee:01", "authorized", "T0", "T0", ""⟩] "T5" 2 true []
      = ([⟨"aa:bb:cc:dd:ee:01", "authorized", "T0", "T0", ""⟩], 2, []) :=
  c2_empty_scan_leaves_registry_untouched none
    [⟨"aa:bb:cc:dd:ee:01", "authorized", "T0", "T0", ""⟩] "T5" 2 true [] rfl

/-! ## Counting helpers -/

theorem countP_flatMap_zero {α γ : Type} (p : γ → Bool) (f : α → List γ) (l : List α)
    (h : ∀ y ∈ l, (f y).countP p = 0) : (l.flatMap f).countP p = 0 := by
  rw [List.countP_eq_zero]
  intro a ha
  obtain ⟨y, hy, hay⟩ := List.mem_flatMap.mp ha
  exact (List.countP_eq_zero.mp (h y hy)) a hay

theorem countP_flatMap_of_single {α γ : Type} (l : List α) (x : α) (p : γ → Bool)
    (f : α → List γ) (hmem : x ∈ l) (hnd : l.Nodup)
    (hother : ∀ y ∈ l, y ≠ x → (f y).countP p = 0) :
    (l.flatMap f).countP p = (f x).countP p := by
  induction l with
  | nil => exact absurd hmem (List.not_mem_nil x)
  | cons a t ih =>
    obtain ⟨hat, hndt⟩ := List.nodup_cons.mp hnd
    rw [List.flatMap_cons, List.countP_append]
    rcases List.mem_cons.mp hmem with hx | hx
    · rw [← hx]
      have hz : (t.flatMap f).countP p = 0 := by
        refine countP_flatMap_zero p f t (fun y hy => ?_)
        refine hother y (List.mem_cons_of_mem a hy) (fun hyx => ?_)
        rw [← hx] at hat
        exact hat (hyx ▸ hy)
      rw [hz]
      omega
    · have ha0 : (f a).countP p = 0 := by
        refine hother a (List.mem_cons_self a t) (fun hax => ?_)
        exact hat (hax ▸ hx)
      rw [ha0, ih hx hndt (fun y hy hyx => hother y (List.mem_cons_of_mem a hy) hyx)]
      omega

/-! ## Drift-check lemmas and C4 -/

theorem driftRowActs_cases (devs : List FbxDevice) (r : DeviceRow) :
    driftRowActs devs r = [] ∨ driftRowActs devs r = [Act.driftBlock r.mac]
    ∨ driftRowActs devs r = [Act.driftAllow r.mac] := by
  cases hf : fbxState devs r.mac with
  | none =>
    left
    simp [driftRowActs, hf]
  | some current =>
    by_cases h1 : r.status = "banned" ∨ r.status = "quarantine"
    · cases current
      · left
        simp [driftRowActs, hf, h1]
      · right
        left
        simp [driftRowActs, hf, h1]
    · by_cases h3 : r.status = "authorized"
      · cases current
        · right
          right
          simp [driftRowActs, hf, h1, h3]
        · left
          simp [driftRowActs, hf, h1, h3]
      · left
        simp [driftRowActs, hf, h1, h3]

theorem driftRowActs_other_block (devs : List FbxDevice) (r : DeviceRow) (mac : String)
    (h : r.mac ≠ mac) :
    (driftRowActs devs r).countP (fun a => a = Act.driftBlock mac) = 0 := by
  rcases driftRowActs_cases devs r with hc | hc | hc <;> rw [hc] <;> simp [h]

theorem driftRowActs_other_allow (devs : List FbxDevice) (r : DeviceRow) (mac : String)
    (h : r.mac ≠ mac) :
    (driftRowActs devs r).countP (fun a => a = Act.driftAllow mac) = 0 := by
  rcases driftRowActs_cases devs r with hc | hc | hc <;> rw [hc] <;> simp [h]

theorem check_status_changes_eq (db : List DeviceRow) (devs : List FbxDevice)
    (hdevs : devs ≠ []) :
    check_status_changes true db devs = db.flatMap (driftRowActs devs) := by
  unfold check_status_changes
  rw [if_neg (by simp), if_neg hdevs]

/-- Claim C4 (functional_correctness): during a drift check with the
gateway connected and a non-empty device report, a registry row whose
status is `banned` or `quarantine` while the gateway reports its access
flag as allowed receives exactly one corrective `block_device_by_mac`
call (the branch that also logs the drift warning) and no `allow` call;
symmetrically an `authorized` row reported as blocked receives exactly
one corrective `allow` call and no `block` call.  The mismatch is
auto-corrected; no registry write or escalation happens. -/
theorem c4_drift_check_one_corrective_call
    (db : List DeviceRow) (devs : List FbxDevice) (row : DeviceRow)
    (hnd : (db.map (fun r => r.mac)).Nodup) (hrow : row ∈ db) (hdevs : devs ≠ []) :
    ((row.status = "banned" ∨ row.status = "quarantine") →
      fbxState devs row.mac = some true →
      (check_status_changes true db devs).countP (fun a => a = Act.driftBlock row.mac) = 1
      ∧ (check_status_changes true db devs).countP (fun a => a = Act.driftAllow row.mac) = 0)
    ∧ (row.status = "authorized" → fbxState devs row.mac = some false →
      (check_status_changes true db devs).countP (fun a => a = Act.driftAllow row.mac) = 1
      ∧ (check_status_changes true db devs).countP (fun a => a = Act.driftBlock row.mac) = 0) := by
  have hinj : ∀ y ∈ db, y ≠ row → y.mac ≠ row.mac := by
    intro y hy hne hmac
    exact hne (List.inj_on_of_nodup_map hnd hy hrow hmac)
  constructor
  · intro hst hacc
    have hrowacts : driftRowActs devs row = [Act.driftBlock row.mac] := by
      simp [driftRowActs, hacc, hst]
    rw [check_status_changes_eq db devs hdevs,
      countP_flatMap_of_single db row _ (driftRowActs devs) hrow
        (List.Nodup.of_map _ hnd)
        (fun y hy hne => driftRowActs_other_block devs y row.mac (hinj y hy hne)),
      countP_flatMap_of_single db row _ (driftRowActs devs) hrow
        (List.Nodup.of_map _ hnd)
        (fun y hy hne => driftRowActs_other_allow devs y row.mac (hinj y hy hne)),
      hrowacts]
    constructor <;> simp
  · intro hst hacc
    have hrowacts : driftRowActs devs row = [Act.driftAllow row.mac] := by
      simp [driftRowActs, hacc, hst]
    rw [check_status_changes_eq db devs hdevs,
      countP_flatMap_of_single db row _ (driftRowActs devs) hrow
        (List.Nodup.of_map _ hnd)
        (fun y hy hne => driftRowActs_other_allow devs y row.mac (hinj y hy hne)),
      countP_flatMap_of_single db row _ (driftRowActs devs) hrow
        (List.Nodup.of_map _ hnd)
        (fun y hy hne => driftRowActs_other_block devs y row.mac (hinj y hy hne)),
      hrowacts]
    constructor <;> simp

/-- Witness for C4: one banned row reported allowed gets exactly one
corrective block. -/
theorem c4_drift_check_one_corrective_call_witness :
    (check_status_changes true [⟨"aa:bb:cc:dd:ee:01", "banned", "T0", "T0", ""⟩]
        [⟨"AA:BB:CC:DD:EE:01", some true⟩]).countP
      (fun a => a = Act.driftBlock "aa:bb:cc:dd:ee:01") = 1
    ∧ (check_status_changes true [⟨"aa:bb:cc:dd:ee:01", "banned", "T0", "T0", ""⟩]
        [⟨"AA:BB:CC:DD:EE:01", some true⟩]).countP
      (fun a => a = Act.driftAllow "aa:bb:cc:dd:ee:01") = 0 :=
  (c4_drift_check_one_corrective_call
    [⟨"aa:bb:cc:dd:ee:01", "banned", "T0", "T0", ""⟩]
    [⟨"AA:BB:CC:DD:EE:01", some true⟩]
    ⟨"aa:bb:cc:dd:ee:01", "banned", "T0", "T0", ""⟩
    (by decide) (by decide) (by decide)).1 (Or.inl rfl) (by decide)

/-! ## Cycle decomposition lemmas -/

theorem runCycle_db_eq (scanned : List String) (db : List DeviceRow) (now : String)
    (ctr : Nat) (connected : Bool) (devs : List FbxDevice) (h : scanned ≠ []) :
    (runCycle scanned db now ctr connected devs).1
      = scanned.foldl (macDbStep (knownStatus db) now) db := by
  unfold runCycle
  rw [if_neg (fun hl => h (List.length_eq_zero.mp hl))]
  by_cases hc : ctr + 1 ≥ 3 <;> simp [hc]

theorem runCycle_acts_eq (scanned : List String) (db : List DeviceRow) (now : String)
    (ctr : Nat) (connected : Bool) (devs : List FbxDevice) (h : scanned ≠ []) :
    (runCycle scanned db now ctr connected devs).2.2
      = scanned.flatMap (macActs (knownStatus db))
        ++ (if ctr + 1 ≥ 3 then
              check_status_changes connected
                (scanned.foldl (macDbStep (knownStatus db) now) db) devs
            else []) := by
  unfold runCycle
  rw [if_neg (fun hl => h (List.length_eq_zero.mp hl))]
  by_cases hc : ctr + 1 ≥ 3 <;> simp [hc]

theorem foldl_macDbStep_other (known : String → Option String) (now : String)
    (l : List String) (dbk : List DeviceRow) (mac : String) (hm : mac ∉ l) :
    findRow (l.foldl (macDbStep known now) dbk) mac = findRow dbk mac := by
  induction l generalizing dbk with
  | nil => rfl
  | cons m t ih =>
    have hmm : mac ≠ m ∧ mac ∉ t := by
      constructor
      · exact fun hh => hm (hh ▸ List.mem_cons_self m t)
      · exact fun hh => hm (List.mem_cons_of_mem m hh)
    rw [List.foldl_cons, ih _ hmm.2]
    cases hk : known m with
    | none =>
      simp only [macDbStep, hk]
      exact findRow_update_other dbk m "quarantine" now mac (Ne.symm hmm.1)
    | some s =>
      simp only [macDbStep, hk]
      by_cases hs : s ≠ ""
      · rw [if_pos hs]
        exact findRow_update_other dbk m s now mac (Ne.symm hmm.1)
      · rw [if_neg hs]

/-- A Boolean matcher for the new-device notification about a given MAC. -/
def isNotifyNewFor (mac : String) : Act → Bool
  | .notifyNew m _ => m = mac
  | _ => false

theorem macActs_other_notify (known : String → Option String) (m' mac : String)
    (h : m' ≠ mac) :
    (macActs known m').countP (isNotifyNewFor mac) = 0 := by
  unfold macActs
  cases known m' with
  | none => simp [isNotifyNewFor, h]
  | some s =>
    rw [List.countP_append]
    split_ifs <;> simp [isNotifyNewFor]

theorem check_status_changes_no_notify (c : Bool) (db : List DeviceRow)
    (devs : List FbxDevice) (mac : String) :
    (check_status_changes c db devs).countP (isNotifyNewFor mac) = 0 := by
  unfold check_status_changes
  split_ifs with h1 h2
  · rfl
  · rfl
  · refine countP_flatMap_zero _ _ db (fun r _ => ?_)
    rcases driftRowActs_cases devs r with hc | hc | hc <;> rw [hc] <;> simp [isNotifyNewFor]

/-- Claim C1 (functional_correctness): a scanned MAC with no registry row is
classified by the cycle as `quarantine` — never `authorized` on any path:
the inserted row's status is exactly `"quarantine"` — and its processing
performs, in order, the quarantine upsert, then the `block_mac` call,
then exactly one new-device notification. -/
theorem c1_new_device_quarantined_blocked_notified
    (scanned : List String) (db : List DeviceRow) (now : String) (ctr : Nat)
    (connected : Bool) (devs : List FbxDevice) (mac : String)
    (hnd : scanned.Nodup) (hmem : mac ∈ scanned) (habs : findRow db mac = none) :
    (∃ pre post, (runCycle scanned db now ctr connected devs).2.2
        = pre ++ [Act.upsertA mac "quarantine", Act.blockCall mac,
                  Act.notifyNew mac "quarantine"] ++ post)
    ∧ (runCycle scanned db now ctr connected devs).2.2.countP (isNotifyNewFor mac) = 1
    ∧ (findRow (runCycle scanned db now ctr connected devs).1 mac).map (fun r => r.status)
        = some "quarantine" := by
  have hne : scanned ≠ [] := fun hh => by
    rw [hh] at hmem
    exact absurd hmem (List.not_mem_nil mac)
  have hknone : knownStatus db mac = none := by
    unfold knownStatus get_mac_status
    rw [habs]
    rfl
  have hmacts : macActs (knownStatus db) mac
      = [Act.upsertA mac "quarantine", Act.blockCall mac, Act.notifyNew mac "quarantine"] := by
    unfold macActs
    rw [hknone]
  obtain ⟨s1, s2, hs⟩ := List.append_of_mem hmem
  have hnd' : (s1 ++ mac :: s2).Nodup := hs ▸ hnd
  have hns : mac ∉ s1 ∧ mac ∉ s2 := by
    rw [List.nodup_append] at hnd'
    refine ⟨fun hh => hnd'.2.2 hh (List.mem_cons_self mac s2), ?_⟩
    exact (List.nodup_cons.mp hnd'.2.1).1
  refine ⟨?_, ?_, ?_⟩
  · rw [runCycle_acts_eq scanned db now ctr connected devs hne, hs,
      List.flatMap_append, List.flatMap_cons, hmacts]
    refine ⟨s1.flatMap (macActs (knownStatus db)),
      s2.flatMap (macActs (knownStatus db))
        ++ (if ctr + 1 ≥ 3 then
              check_status_changes connected
                ((s1 ++ mac :: s2).foldl (macDbStep (knownStatus db) now) db) devs
            else []), ?_⟩
    simp [List.append_assoc]
  · rw [runCycle_acts_eq scanned db now ctr connected devs hne, List.countP_append,
      countP_flatMap_of_single scanned mac _ (macActs (knownStatus db)) hmem hnd
        (fun y _ hy => macActs_other_notify (knownStatus db) y mac hy),
      hmacts]
    have hdz : ∀ b : Bool, ∀ dbx : List DeviceRow,
        (if ctr + 1 ≥ 3 then check_status_changes b dbx devs else []).countP
          (isNotifyNewFor mac) = 0 := by
      intro b dbx
      split_ifs
      · exact check_status_changes_no_notify b dbx devs mac
      · rfl
    rw [hdz]
    simp [isNotifyNewFor]
  · rw [runCycle_db_eq scanned db now ctr connected devs hne, hs, List.foldl_append,
      List.foldl_cons, foldl_macDbStep_other _ _ s2 _ mac hns.2]
    have h1 : findRow (List.foldl (macDbStep (knownStatus db) now) db s1) mac = none := by
      rw [foldl_macDbStep_other _ _ s1 db mac hns.1]
      exact habs
    simp only [macDbStep, hknone]
    rw [findRow_update_self, h1]
    rfl

/-- Witness for C1: empty registry, one scanned MAC. -/
theorem c1_new_device_quarantined_blocked_notified_witness :
    (∃ pre post, (runCycle ["aa:bb:cc:dd:ee:01"] [] "T1" 0 true []).2.2
        = pre ++ [Act.upsertA "aa:bb:cc:dd:ee:01" "quarantine",
                  Act.blockCall "aa:bb:cc:dd:ee:01",
                  Act.notifyNew "aa:bb:cc:dd:ee:01" "quarantine"] ++ post)
    ∧ (runCycle ["aa:bb:cc:dd:ee:01"] [] "T1" 0 true []).2.2.countP
        (isNotifyNewFor "aa:bb:cc:dd:ee:01") = 1
    ∧ (findRow (runCycle ["aa:bb:cc:dd:ee:01"] [] "T1" 0 true []).1
        "aa:bb:cc:dd:ee:01").map (fun r => r.status) = some "quarantine" :=
  c1_new_device_quarantined_blocked_notified ["aa:bb:cc:dd:ee:01"] [] "T1" 0 true []
    "aa:bb:cc:dd:ee:01" (by decide) (by decide) rfl

/-! ## C8: the loop preserves existing statuses -/

theorem macDbStep_other (known : String → Option String) (now : String)
    (dbk : List DeviceRow) (m mac : String) (hmm : m ≠ mac) :
    findRow (macDbStep known now dbk m) mac = findRow dbk mac := by
  cases hk : known m with
  | none =>
    simp only [macDbStep, hk]
    exact findRow_update_other dbk m "quarantine" now mac hmm
  | some s =>
    simp only [macDbStep, hk]
    by_cases hs : s ≠ ""
    · rw [if_pos hs]
      exact findRow_update_other dbk m s now mac hmm
    · rw [if_neg hs]

theorem foldl_macDbStep_inv (scanned : List String) (db : List DeviceRow) (now : String)
    (dbk : List DeviceRow)
    (h1 : ∀ mac r, findRow db mac = some r →
      ∃ ls, findRow dbk mac
          = some { mac := r.mac, status := r.status, first_seen := r.first_seen,
                   last_seen := ls, comment := r.comment })
    (h2 : ∀ mac, findRow db mac = none →
      findRow dbk mac = none
      ∨ (findRow dbk mac).map (fun r => r.status) = some "quarantine") :
    (∀ mac r, findRow db mac = some r →
      ∃ ls, findRow (scanned.foldl (macDbStep (knownStatus db) now) dbk) mac
          = some { mac := r.mac, status := r.status, first_seen := r.first_seen,
                   last_seen := ls, comment := r.comment })
    ∧ (∀ mac, findRow db mac = none →
      findRow (scanned.foldl (macDbStep (knownStatus db) now) dbk) mac = none
      ∨ (findRow (scanned.foldl (macDbStep (knownStatus db) now) dbk) mac).map
          (fun r => r.status) = some "quarantine") := by
  induction scanned generalizing dbk with
  | nil => exact ⟨h1, h2⟩
  | cons m t ih =>
    rw [List.foldl_cons]
    refine ih (macDbStep (knownStatus db) now dbk m) ?_ ?_
    · intro mac r hr
      by_cases hmm : m = mac
      · subst hmm
        have hk : knownStatus db m = some r.status := by
          unfold knownStatus get_mac_status
          rw [hr]
          rfl
        simp only [macDbStep, hk]
        by_cases hs : r.status ≠ ""
        · rw [if_pos hs, findRow_update_self]
          obtain ⟨ls', hls'⟩ := h1 m r hr
          rw [hls']
          exact ⟨now, rfl⟩
        · rw [if_neg hs]
          exact h1 m r hr
      · rw [macDbStep_other (knownStatus db) now dbk m mac hmm]
        exact h1 mac r hr
    · intro mac hr
      by_cases hmm : m = mac
      · subst hmm
        have hk : knownStatus db m = none := by
          unfold knownStatus get_mac_status
          rw [hr]
          rfl
        simp only [macDbStep, hk]
        rw [findRow_update_self]
        right
        cases findRow dbk m <;> rfl
      · rw [macDbStep_other (knownStatus db) now dbk m mac hmm]
        exact h2 mac hr

/-- Claim C8 (invariants): for every device already in the registry when the
cycle starts, the cycle's per-MAC processing and drift check leave its
`status` (and `first_seen` and `comment`) unchanged — the status written
back is the status read at the start of the cycle, only `last_seen` may
move — and the only status the cycle itself creates is the forced
`quarantine` row for a previously absent MAC. -/
theorem c8_loop_preserves_existing_statuses
    (scanned : List String) (db : List DeviceRow) (now : String) (ctr : Nat)
    (connected : Bool) (devs : List FbxDevice) :
    (∀ mac r, findRow db mac = some r →
      ∃ ls, findRow (runCycle scanned db now ctr connected devs).1 mac
          = some { mac := r.mac, status := r.status, first_seen := r.first_seen,
                   last_seen := ls, comment := r.comment })
    ∧ (∀ mac, findRow db mac = none →
      findRow (runCycle scanned db now ctr connected devs).1 mac = none
      ∨ (findRow (runCycle scanned db now ctr connected devs).1 mac).map
          (fun r => r.status) = some "quarantine") := by
  by_cases hne : scanned = []
  · subst hne
    have hdb : (runCycle [] db now ctr connected devs).1 = db := rfl
    rw [hdb]
    constructor
    · intro mac r hr
      refine ⟨r.last_seen, ?_⟩
      rw [hr]
    · intro mac hr
      exact Or.inl hr
  · rw [runCycle_db_eq scanned db now ctr connected devs hne]
    refine foldl_macDbStep_inv scanned db now db ?_ ?_
    · intro mac r hr
      refine ⟨r.last_seen, ?_⟩
      rw [hr]
    · intro mac hr
      exact Or.inl hr

/-- Witness for C8: an authorized row survives a cycle that scans it, with
only `last_seen` refreshed. -/
theorem c8_loop_preserves_existing_statuses_witness :
    ∃ ls, findRow (runCycle ["bb:bb:bb:bb:bb:02"]
        [⟨"bb:bb:bb:bb:bb:02", "authorized", "T0", "T0", "printer"⟩] "T9" 0 true []).1
        "bb:bb:bb:bb:bb:02"
      = some ⟨"bb:bb:bb:bb:bb:02", "authorized", "T0", ls, "printer"⟩ :=
  (c8_loop_preserves_existing_statuses ["bb:bb:bb:bb:bb:02"]
    [⟨"bb:bb:bb:bb:bb:02", "authorized", "T0", "T0", "printer"⟩] "T9" 0 true []).1
    "bb:bb:bb:bb:bb:02" ⟨"bb:bb:bb:bb:bb:02", "authorized", "T0", "T0", "printer"⟩ (by decide)

/-! ## Enforcement-client lemmas -/

/-- The canonical case-insensitive membership test both response shapes
normalize to. -/
def filterMemb (entries : List ListEntry) (mac : String) : Bool :=
  entries.any (fun e => pyLower e.mac = pyLower mac)

theorem blockFound_encode (b : Bool) (entries : List ListEntry) (mac : String) :
    blockFound (encodeResp b entries) mac = filterMemb entries mac := by
  cases b with
  | false => rfl
  | true =>
    induction entries with
    | nil => rfl
    | cons e t ih =>
      simp only [encodeResp, if_true, List.map_cons, blockFound, List.any_cons] at ih ⊢
      rw [ih]
      rfl

theorem allowLookup_encode (b : Bool) (entries : List ListEntry) (mac : String) :
    allowLookup (encodeResp b entries) mac
      = match entries.find? (fun e => pyLower e.mac = pyLower mac) with
        | some e => e.id
        | none => none := by
  cases b with
  | false => rfl
  | true =>
    induction entries with
    | nil => rfl
    | cons e t ih =>
      by_cases hm : pyLower e.mac = pyLower mac
      · simp only [encodeResp, if_true, List.map_cons, allowLookup]
        rw [List.find?_cons_of_pos _ (by simpa using hm),
          List.find?_cons_of_pos _ (by simpa using hm)]
      · simp only [encodeResp, if_true, List.map_cons, allowLookup] at ih ⊢
        rw [List.find?_cons_of_neg _ (by simpa using hm),
          List.find?_cons_of_neg _ (by simpa using hm)]
        exact ih

theorem ensure_healthy (env : Env) (st : St) (tok : String)
    (hnet : ∀ n, env.net n = true) (hacc : ∀ n s, env.accept n s = true)
    (htok : st.api.session_token = some tok) :
    ensure_valid_session env st = (true, { st with time := st.time + 1 }, [Ev.probe true]) := by
  unfold ensure_valid_session is_session_valid
  rw [htok]
  simp [hnet, hacc]

theorem block_device_healthy (env : Env) (st : St) (mac tok : String)
    (hnet : ∀ n, env.net n = true) (hacc : ∀ n s, env.accept n s = true)
    (hconn : st.api.connected = true) (htok : st.api.session_token = some tok) :
    block_device_by_mac env st mac =
      if filterMemb st.entries mac then
        (true, { st with time := st.time + 2 }, [Ev.probe true, Ev.filterGet .success])
      else
        (true,
         { st with
           entries := st.entries ++ [⟨pyUpper mac, some (.num st.nextId)⟩],
           nextId := st.nextId + 1,
           time := st.time + 3 },
         [Ev.probe true, Ev.filterGet .success, Ev.filterPost .success]) := by
  unfold block_device_by_mac
  rw [ensure_healthy env st tok hnet hacc htok]
  simp only [hconn, Bool.not_true, Bool.false_eq_true, if_false, hnet, hacc,
    blockFound_encode, blockPost, htok]
  cases hm : filterMemb st.entries mac <;> simp [hm]

/-- The id the canonical lookup produces from the logical entry list. -/
def canonicalId (entries : List ListEntry) (mac : String) : Option FilterId :=
  match entries.find? (fun e => pyLower e.mac = pyLower mac) with
  | some e => e.id
  | none => none

theorem allow_device_healthy (env : Env) (st : St) (mac tok : String)
    (hnet : ∀ n, env.net n = true) (hacc : ∀ n s, env.accept n s = true)
    (hconn : st.api.connected = true) (htok : st.api.session_token = some tok) :
    allow_device_by_mac env st mac =
      if idTruthy (canonicalId st.entries mac) then
        (true,
         { st with
           entries := st.entries.filter (fun e => e.id ≠ canonicalId st.entries mac),
           time := st.time + 3 },
         [Ev.probe true, Ev.filterGet .success, Ev.filterDelete .success])
      else
        (true, { st with time := st.time + 2 }, [Ev.probe true, Ev.filterGet .success]) := by
  unfold allow_device_by_mac
  rw [ensure_healthy env st tok hnet hacc htok]
  simp only [hconn, Bool.not_true, Bool.false_eq_true, if_false, hnet, hacc, htok,
    allowLookup_encode]
  cases hm : idTruthy (canonicalId st.entries mac) <;> simp [canonicalId] at hm <;>
    simp [hm, canonicalId]

theorem filterMemb_append_upper (l : List ListEntry) (mac : String) (oid : Option FilterId) :
    filterMemb (l ++ [⟨pyUpper mac, oid⟩]) mac = true := by
  simp [filterMemb, List.any_append, List.any_cons, pyLower_pyUpper]

/-- Claim C5 (algebraic_relational): with the gateway reachable and the
session accepted, `block` fetches the filter first and does a
case-insensitive duplicate search; both the already-blocked and the
block-applied case return `True`, and a second `block` of the same MAC
leaves the gateway filter entries (hence membership) exactly as after the
first call. -/
theorem c5_block_idempotent (env : Env) (st : St) (mac tok : String)
    (hnet : ∀ n, env.net n = true) (hacc : ∀ n s, env.accept n s = true)
    (hconn : st.api.connected = true) (htok : st.api.session_token = some tok) :
    (block_device_by_mac env st mac).1 = true
    ∧ (block_device_by_mac env (block_device_by_mac env st mac).2.1 mac).1 = true
    ∧ (block_device_by_mac env (block_device_by_mac env st mac).2.1 mac).2.1.entries
        = (block_device_by_mac env st mac).2.1.entries := by
  rw [block_device_healthy env st mac tok hnet hacc hconn htok]
  cases hm : filterMemb st.entries mac with
  | false =>
    simp only [hm, Bool.false_eq_true, if_false]
    rw [block_device_healthy env
      { st with
        entries := st.entries ++ [⟨pyUpper mac, some (.num st.nextId)⟩],
        nextId := st.nextId + 1,
        time := st.time + 3 } mac tok hnet hacc hconn htok]
    simp [filterMemb_append_upper]
  | true =>
    simp only [hm, if_true]
    rw [block_device_healthy env { st with time := st.time + 2 } mac tok hnet hacc hconn htok]
    simp [hm]

/-- Witness environment: network up, every session token accepted,
handshake available, list-shaped filter responses. -/
def envAllOk : Env :=
  { net := fun _ => true, accept := fun _ _ => true, challengeOk := fun _ => true,
    grant := fun _ => some "t1", shapeMap := fun _ => false }

/-- Witness client state: connected with cached tokens and an empty
gateway filter. -/
def stOk : St :=
  { api := { connected := true, session_token := some "s0", app_token := some "a0" },
    entries := [], nextId := 0, time := 0 }

/-- Witness for C5 at a concrete healthy run. -/
theorem c5_block_idempotent_witness :
    (block_device_by_mac envAllOk stOk "aa:bb:cc:dd:ee:01").1 = true
    ∧ (block_device_by_mac envAllOk
        (block_device_by_mac envAllOk stOk "aa:bb:cc:dd:ee:01").2.1 "aa:bb:cc:dd:ee:01").1 = true
    ∧ (block_device_by_mac envAllOk
        (block_device_by_mac envAllOk stOk "aa:bb:cc:dd:ee:01").2.1
          "aa:bb:cc:dd:ee:01").2.1.entries
        = (block_device_by_mac envAllOk stOk "aa:bb:cc:dd:ee:01").2.1.entries :=
  c5_block_idempotent envAllOk stOk "aa:bb:cc:dd:ee:01" "s0"
    (fun _ => rfl) (fun _ _ => rfl) rfl rfl

/-- A Boolean matcher for filter DELETE requests. -/
def isDeleteEv : Ev → Bool
  | .filterDelete _ => true
  | _ => false

/-- Claim C6 (functional_correctness): with the gateway reachable and the
session accepted, `allow` on a MAC absent from the filter returns `True`
while issuing no DELETE request and leaving the filter entries unchanged:
already-allowed is not an error. -/
theorem c6_allow_absent_noop_success (env : Env) (st : St) (mac tok : String)
    (hnet : ∀ n, env.net n = true) (hacc : ∀ n s, env.accept n s = true)
    (hconn : st.api.connected = true) (htok : st.api.session_token = some tok)
    (habs : ∀ e ∈ st.entries, pyLower e.mac ≠ pyLower mac) :
    (allow_device_by_mac env st mac).1 = true
    ∧ (allow_device_by_mac env st mac).2.1.entries = st.entries
    ∧ (allow_device_by_mac env st mac).2.2.countP isDeleteEv = 0 := by
  have hfind : st.entries.find? (fun e => pyLower e.mac = pyLower mac) = none :=
    List.find?_eq_none.mpr (fun e he => by simpa using habs e he)
  have hcan : canonicalId st.entries mac = none := by
    unfold canonicalId
    rw [hfind]
  rw [allow_device_healthy env st mac tok hnet hacc hconn htok, hcan]
  simp [idTruthy, isDeleteEv]

/-- Witness for C6 with an empty gateway filter. -/
theorem c6_allow_absent_noop_success_witness :
    (allow_device_by_mac envAllOk stOk "aa:bb:cc:dd:ee:01").1 = true
    ∧ (allow_device_by_mac envAllOk stOk "aa:bb:cc:dd:ee:01").2.1.entries = stOk.entries
    ∧ (allow_device_by_mac envAllOk stOk "aa:bb:cc:dd:ee:01").2.2.countP isDeleteEv = 0 :=
  c6_allow_absent_noop_success envAllOk stOk "aa:bb:cc:dd:ee:01" "s0"
    (fun _ => rfl) (fun _ _ => rfl) rfl rfl (by simp [stOk])

/-- Claim C9 (refinement_equivalence): runs of `block` and `allow` do not
depend on whether the gateway encodes the filter list as a sequence or as
a MAC-keyed mapping of the same logical entries — two healthy
environments that may answer with different shapes on every step produce
identical results, states and traces — because both shapes reduce to the
same case-insensitive membership test and id lookup before any comparison
or mutation logic runs. -/
theorem c9_filter_shape_equivalence (e1 e2 : Env) (st : St) (mac tok : String)
    (h1net : ∀ n, e1.net n = true) (h1acc : ∀ n s, e1.accept n s = true)
    (h2net : ∀ n, e2.net n = true) (h2acc : ∀ n s, e2.accept n s = true)
    (hconn : st.api.connected = true) (htok : st.api.session_token = some tok) :
    block_device_by_mac e1 st mac = block_device_by_mac e2 st mac
    ∧ allow_device_by_mac e1 st mac = allow_device_by_mac e2 st mac
    ∧ (∀ l : List ListEntry,
        blockFound (FilterResp.asList l) mac
          = blockFound (FilterResp.asMap (l.map (fun e => (e.mac, MapVal.obj e.id)))) mac)
    ∧ (∀ l : List ListEntry,
        allowLookup (FilterResp.asList l) mac
          = allowLookup (FilterResp.asMap (l.map (fun e => (e.mac, MapVal.obj e.id)))) mac) := by
  refine ⟨?_, ?_, ?_, ?_⟩
  · rw [block_device_healthy e1 st mac tok h1net h1acc hconn htok,
      block_device_healthy e2 st mac tok h2net h2acc hconn htok]
  · rw [allow_device_healthy e1 st mac tok h1net h1acc hconn htok,
      allow_device_healthy e2 st mac tok h2net h2acc hconn htok]
  · intro l
    have ha := blockFound_encode false l mac
    have hb := blockFound_encode true l mac
    rw [show FilterResp.asList l = encodeResp false l from rfl,
      show FilterResp.asMap (l.map (fun e => (e.mac, MapVal.obj e.id))) = encodeResp true l
        from rfl, ha, hb]
  · intro l
    have ha := allowLookup_encode false l mac
    have hb := allowLookup_encode true l mac
    rw [show FilterResp.asList l = encodeResp false l from rfl,
      show FilterResp.asMap (l.map (fun e => (e.mac, MapVal.obj e.id))) = encodeResp true l
        from rfl, ha, hb]

/-- Witness environment answering every filter GET with the mapping
shape. -/
def envAllMap : Env :=
  { envAllOk with shapeMap := fun _ => true }

/-- Witness for C9: list-shaped and map-shaped environments agree on a
concrete block run. -/
theorem c9_filter_shape_equivalence_witness :
    block_device_by_mac envAllOk stOk "aa:bb:cc:dd:ee:01"
      = block_device_by_mac envAllMap stOk "aa:bb:cc:dd:ee:01" :=
  (c9_filter_shape_equivalence envAllOk envAllMap stOk "aa:bb:cc:dd:ee:01" "s0"
    (fun _ => rfl) (fun _ _ => rfl) (fun _ => rfl) (fun _ _ => rfl) rfl rfl).1

/-! ## C3: session rejection mid-call -/

/-- A filter request answered with an authentication rejection
(`success: false` with the session refused) occurred during the run. -/
def midCallRejected (tr : List Ev) : Bool :=
  tr.any (fun e =>
    match e with
    | .filterGet .authRejected => true
    | .filterPost .authRejected => true
    | .filterDelete .authRejected => true
    | _ => false)

/-- A Boolean matcher for handshake (challenge-exchange) events. -/
def isHandshakeEv : Ev → Bool
  | .handshake _ => true
  | _ => false

/-- A Boolean matcher for the three `wifi/mac_filter` requests. -/
def isFilterEv : Ev → Bool
  | .filterGet _ => true
  | .filterPost _ => true
  | .filterDelete _ => true
  | _ => false

/-- Number of challenge exchanges attempted during a run. -/
def handshakeCount (tr : List Ev) : Nat := tr.countP isHandshakeEv

/-- Claim C3 as stated, at one block run: if the run reports failure and
the session was rejected mid-call on a filter request, then the run
performed exactly one re-handshake (the claim further demands a retry of
the operation, which is strictly stronger; refuting this weaker
requirement refutes the claim). -/
def claimC3At (env : Env) (st : St) (mac : String) : Prop :=
  (block_device_by_mac env st mac).1 = false →
  midCallRejected (block_device_by_mac env st mac).2.2 = true →
  handshakeCount (block_device_by_mac env st mac).2.2 = 1

/-- Gateway that accepts the session only for the very first request:
the validity probe passes, then a concurrent rotation invalidates the
token and both filter requests are rejected mid-call. -/
def envRotate : Env :=
  { net := fun _ => true, accept := fun n _ => n == 0, challengeOk := fun _ => true,
    grant := fun _ => none, shapeMap := fun _ => false }

/-- Counterexample to C3: under `envRotate` the block run fails after a
mid-call session rejection with zero re-handshakes and no retry, where
the claim demands exactly one re-handshake and one retry. -/
theorem c3_no_midcall_rehandshake_counterexample :
    ¬ claimC3At envRotate stOk "aa:bb:cc:dd:ee:01" := by
  intro h
  have : handshakeCount (block_device_by_mac envRotate stOk "aa:bb:cc:dd:ee:01").2.2 = 1 :=
    h (by decide) (by decide)
  exact absurd this (by decide)

theorem is_session_valid_trace (env : Env) (st : St) :
    (is_session_valid env st).2.2 = [] ∨ ∃ b, (is_session_valid env st).2.2 = [Ev.probe b] := by
  unfold is_session_valid
  cases st.api.session_token with
  | none => exact Or.inl rfl
  | some tok =>
    cases hc : env.net st.time && env.accept st.time tok with
    | false =>
      refine Or.inr ⟨false, ?_⟩
      simp [hc]
    | true =>
      refine Or.inr ⟨true, ?_⟩
      simp [hc]

theorem get_new_session_token_trace (env : Env) (st : St) :
    (get_new_session_token env st).2.2 = []
    ∨ ∃ b, (get_new_session_token env st).2.2 = [Ev.handshake b] := by
  unfold get_new_session_token
  cases st.api.app_token with
  | none => exact Or.inl rfl
  | some a =>
    cases hc : env.net st.time && env.challengeOk st.time with
    | false =>
      refine Or.inr ⟨false, ?_⟩
      simp [hc]
    | true =>
      cases hn : env.net (st.time + 1) with
      | false =>
        refine Or.inr ⟨false, ?_⟩
        simp [hc, hn]
      | true =>
        cases hg : env.grant (st.time + 1) with
        | none =>
          refine Or.inr ⟨false, ?_⟩
          simp [hc, hn, hg]
        | some tok2 =>
          refine Or.inr ⟨true, ?_⟩
          simp [hc, hn, hg]

theorem ensure_valid_session_trace (env : Env) (st : St) :
    ((ensure_valid_session env st).2.2).countP isFilterEv = 0
    ∧ handshakeCount (ensure_valid_session env st).2.2 ≤ 1 := by
  unfold ensure_valid_session
  cases htok : st.api.session_token with
  | none =>
    rcases get_new_session_token_trace env st with h | ⟨b, h⟩ <;> rw [h] <;>
      simp [handshakeCount, isHandshakeEv, isFilterEv]
  | some tok =>
    cases hp : (is_session_valid env st).1 with
    | true =>
      simp only [hp, if_true]
      rcases is_session_valid_trace env st with h | ⟨b, h⟩ <;> rw [h] <;>
        simp [handshakeCount, isHandshakeEv, isFilterEv]
    | false =>
      simp only [hp, Bool.false_eq_true, if_false]
      cases hh : (get_new_session_token env (is_session_valid env st).2.1).1 <;>
        simp only [hh, if_true, Bool.false_eq_true, if_false] <;>
        rcases is_session_valid_trace env st with h1 | ⟨b1, h1⟩ <;>
        rcases get_new_session_token_trace env (is_session_valid env st).2.1 with h2 | ⟨b2, h2⟩ <;>
        rw [h1, h2] <;>
        simp [handshakeCount, isHandshakeEv, isFilterEv, List.countP_append]

theorem blockPost_trace (env : Env) (st : St) (tr : List Ev) (mac tok : String) :
    ∃ o, (blockPost env st tr mac tok).2.2 = tr ++ [Ev.filterPost o] := by
  unfold blockPost
  cases hn : env.net st.time with
  | false => exact ⟨.netFail, by simp [hn]⟩
  | true =>
    cases ha : env.accept st.time tok with
    | false => exact ⟨.authRejected, by simp [hn, ha]⟩
    | true => exact ⟨.success, by simp [hn, ha]⟩

theorem block_filter_trace (env : Env) (st : St) (mac : String)
    (hconn : st.api.connected = true) (hok : (ensure_valid_session env st).1 = true) :
    ∃ t2, (block_device_by_mac env st mac).2.2 = (ensure_valid_session env st).2.2 ++ t2
      ∧ handshakeCount t2 = 0 := by
  unfold block_device_by_mac
  simp only [hconn, hok, Bool.not_true, Bool.false_eq_true, if_false]
  cases hn : env.net (ensure_valid_session env st).2.1.time with
  | false =>
    refine ⟨[Ev.filterGet .netFail], ?_, rfl⟩
    simp [hn]
  | true =>
    cases ha : env.accept (ensure_valid_session env st).2.1.time
        ((ensure_valid_session env st).2.1.api.session_token.getD "") with
    | true =>
      cases hbf : blockFound
          (encodeResp (env.shapeMap (ensure_valid_session env st).2.1.time)
            (ensure_valid_session env st).2.1.entries) mac with
      | true =>
        refine ⟨[Ev.filterGet .success], ?_, rfl⟩
        simp [hn, ha, hbf]
      | false =>
        obtain ⟨o, ho⟩ := blockPost_trace env
          { (ensure_valid_session env st).2.1 with
            time := (ensure_valid_session env st).2.1.time + 1 }
          ((ensure_valid_session env st).2.2 ++ [Ev.filterGet .success]) mac
          ((ensure_valid_session env st).2.1.api.session_token.getD "")
        refine ⟨[Ev.filterGet .success, Ev.filterPost o], ?_, rfl⟩
        simp only [hn, ha, hbf, Bool.false_eq_true, if_false, if_true, Bool.not_true,
          Bool.not_false]
        rw [ho]
        simp [List.append_assoc]
    | false =>
      obtain ⟨o, ho⟩ := blockPost_trace env
        { (ensure_valid_session env st).2.1 with
          time := (ensure_valid_session env st).2.1.time + 1 }
        ((ensure_valid_session env st).2.2 ++ [Ev.filterGet .authRejected]) mac
        ((ensure_valid_session env st).2.1.api.session_token.getD "")
      refine ⟨[Ev.filterGet .authRejected, Ev.filterPost o], ?_, rfl⟩
      simp only [hn, ha, Bool.false_eq_true, if_false, if_true, Bool.not_true, Bool.not_false]
      rw [ho]
      simp [List.append_assoc]

theorem allow_filter_trace (env : Env) (st : St) (mac : String)
    (hconn : st.api.connected = true) (hok : (ensure_valid_session env st).1 = true) :
    ∃ t2, (allow_device_by_mac env st mac).2.2 = (ensure_valid_session env st).2.2 ++ t2
      ∧ handshakeCount t2 = 0 := by
  unfold allow_device_by_mac
  simp only [hconn, hok, Bool.not_true, Bool.false_eq_true, if_false]
  cases hn : env.net (ensure_valid_session env st).2.1.time with
  | false =>
    refine ⟨[Ev.filterGet .netFail], ?_, rfl⟩
    simp [hn]
  | true =>
    cases ha : env.accept (ensure_valid_session env st).2.1.time
        ((ensure_valid_session env st).2.1.api.session_token.getD "") with
    | false =>
      refine ⟨[Ev.filterGet .authRejected], ?_, rfl⟩
      simp [hn, ha]
    | true =>
      cases hid : idTruthy (allowLookup
          (encodeResp (env.shapeMap (ensure_valid_session env st).2.1.time)
            (ensure_valid_session env st).2.1.entries) mac) with
      | false =>
        refine ⟨[Ev.filterGet .success], ?_, rfl⟩
        simp [hn, ha, hid]
      | true =>
        cases hn2 : env.net ((ensure_valid_session env st).2.1.time + 1) with
        | false =>
          refine ⟨[Ev.filterGet .success, Ev.filterDelete .netFail], ?_, rfl⟩
          simp [hn, ha, hid, hn2, List.append_assoc]
        | true =>
          cases ha2 : env.accept ((ensure_valid_session env st).2.1.time + 1)
              ((ensure_valid_session env st).2.1.api.session_token.getD "") with
          | false =>
            refine ⟨[Ev.filterGet .success, Ev.filterDelete .authRejected], ?_, rfl⟩
            simp [hn, ha, hid, hn2, ha2, List.append_assoc]
          | true =>
            refine ⟨[Ev.filterGet .success, Ev.filterDelete .success], ?_, rfl⟩
            simp [hn, ha, hid, hn2, ha2, List.append_assoc]

/-- Claim C3, amended: re-handshaking happens only in the pre-operation
session validation, at most once per enforcement operation; a session
token rejected during the filter calls themselves triggers no re-handshake
and no retry — every run's trace splits into a validation part (no filter
requests, at most one handshake) followed by a filter part containing no
handshake at all.  In particular a mid-call rejection is followed by zero
re-handshakes before the operation reports its result. -/
theorem c3_no_rehandshake_after_filter_request (env : Env) (st : St) (mac : String) :
    (∃ t1 t2, (block_device_by_mac env st mac).2.2 = t1 ++ t2
      ∧ t1.countP isFilterEv = 0 ∧ handshakeCount t2 = 0 ∧ handshakeCount t1 ≤ 1)
    ∧ (∃ t1 t2, (allow_device_by_mac env st mac).2.2 = t1 ++ t2
      ∧ t1.countP isFilterEv = 0 ∧ handshakeCount t2 = 0 ∧ handshakeCount t1 ≤ 1) := by
  obtain ⟨hf, hh⟩ := ensure_valid_session_trace env st
  constructor
  · cases hconn : st.api.connected with
    | false =>
      refine ⟨[], [], ?_, rfl, rfl, by decide⟩
      simp [block_device_by_mac, hconn]
    | true =>
      cases hok : (ensure_valid_session env st).1 with
      | false =>
        refine ⟨(ensure_valid_session env st).2.2, [], ?_, hf, rfl, hh⟩
        simp [block_device_by_mac, hconn, hok]
      | true =>
        obtain ⟨t2, ht2, hz⟩ := block_filter_trace env st mac hconn hok
        exact ⟨(ensure_valid_session env st).2.2, t2, ht2, hf, hz, hh⟩
  · cases hconn : st.api.connected with
    | false =>
      refine ⟨[], [], ?_, rfl, rfl, by decide⟩
      simp [allow_device_by_mac, hconn]
    | true =>
      cases hok : (ensure_valid_session env st).1 with
      | false =>
        refine ⟨(ensure_valid_session env st).2.2, [], ?_, hf, rfl, hh⟩
        simp [allow_device_by_mac, hconn, hok]
      | true =>
        obtain ⟨t2, ht2, hz⟩ := allow_filter_trace env st mac hconn hok
        exact ⟨(ensure_valid_session env st).2.2, t2, ht2, hf, hz, hh⟩

end TrafficSentinel
